import Mathlib

/-!
Verification of the hawk-tui Python client library (examples/python/hawk.py and
examples/python/hawk_advanced.py) against its natural-language specification.

The development shallow-embeds the relevant parts of the source:
Python values become an inductive `PyVal`, dictionaries become association
lists, machine floats become exact rationals, wall-clock time becomes an
explicit rational parameter, and methods that mutate `self` become pure
functions from state to state.  Fallible operations return `Option` or
`Except`.  Each definition is translated from the source file and line range
cited in its doc comment.
-/

namespace HawkTui

/-- Python runtime values, restricted to the shapes the config panel
manipulates (examples/python/hawk_advanced.py, class ConfigPanel).
Numbers are embedded exactly: int as ℤ, float as ℚ. -/
inductive PyVal where
  | int (n : ℤ)
  | float (q : ℚ)
  | bool (b : Bool)
  | str (s : String)
  | none
  deriving DecidableEq, Repr

/-- Python isinstance(value, int): true for int and for bool (bool is a
subclass of int in Python). -/
def isInstInt : PyVal → Bool
  | .int _ => true
  | .bool _ => true
  | _ => false

/-- Python isinstance(value, (int, float)). -/
def isInstNum : PyVal → Bool
  | .int _ => true
  | .float _ => true
  | .bool _ => true
  | _ => false

/-- Python isinstance(value, bool). -/
def isInstBool : PyVal → Bool
  | .bool _ => true
  | _ => false

/-- Python isinstance(value, str). -/
def isInstStr : PyVal → Bool
  | .str _ => true
  | _ => false

/-- Numeric view of a value, used by Python's order comparisons.  Comparing a
non-numeric value with a number raises TypeError, modelled as Option.none. -/
def pyNum : PyVal → Option ℚ
  | .int n => some (n : ℚ)
  | .float q => some q
  | .bool b => some (if b then 1 else 0)
  | _ => Option.none

/-- Python value < bound (bound is a number): Option.none models TypeError. -/
def pyLtNum (v : PyVal) (bound : ℚ) : Option Bool :=
  (pyNum v).map (fun q => decide (q < bound))

/-- Python value > bound (bound is a number): Option.none models TypeError. -/
def pyGtNum (v : PyVal) (bound : ℚ) : Option Bool :=
  (pyNum v).map (fun q => decide (bound < q))

/-- Truncation of a rational toward zero, the behaviour of Python's
int(float). -/
def ratTrunc (q : ℚ) : ℤ := if q < 0 then ⌈q⌉ else ⌊q⌋

/-- Decimal digit value of a character, if it is a digit. -/
def digitVal (c : Char) : Option ℕ :=
  if c.isDigit then some (c.toNat - 48) else Option.none

/-- Accumulating decimal parser over a character list: all characters must
be digits. -/
def parseNatAux : List Char → ℕ → Option ℕ
  | [], acc => some acc
  | c :: cs, acc =>
    match digitVal c with
    | some d => parseNatAux cs (acc * 10 + d)
    | Option.none => Option.none

/-- Python int(string) for plain decimal literals with an optional sign:
the grammar Python accepts restricted to the inputs this development
evaluates (no surrounding whitespace or underscores). -/
def pyIntOfString (s : String) : Option ℤ :=
  match s.data with
  | [] => Option.none
  | '-' :: cs =>
    if cs.isEmpty then Option.none
    else (parseNatAux cs 0).map (fun m => -(m : ℤ))
  | '+' :: cs =>
    if cs.isEmpty then Option.none
    else (parseNatAux cs 0).map (fun m => (m : ℤ))
  | cs => (parseNatAux cs 0).map (fun m => (m : ℤ))

/-- Lower-casing of an ASCII character, reduction-friendly. -/
def charLower (c : Char) : Char :=
  if 'A' ≤ c ∧ c ≤ 'Z' then Char.ofNat (c.toNat + 32) else c

/-- Python str.lower for ASCII strings. -/
def strLower (s : String) : String := String.mk (s.data.map charLower)

/-- Python int(value): parses strings, truncates floats toward zero, maps
bools to 0/1; anything else raises (Option.none). -/
def pyToInt : PyVal → Option ℤ
  | .int n => some n
  | .float q => some (ratTrunc q)
  | .bool b => some (if b then 1 else 0)
  | .str s => pyIntOfString s
  | .none => Option.none

/-- Python float(value): accepts ints, floats, bools and numeric strings
(string parsing restricted here to integer literals, which covers every use
in this development); anything else raises (Option.none). -/
def pyToFloat : PyVal → Option ℚ
  | .int n => some (n : ℚ)
  | .float q => some q
  | .bool b => some (if b then 1 else 0)
  | .str s => (pyIntOfString s).map (fun n => (n : ℚ))
  | .none => Option.none

/-- Configuration field definition (hawk_advanced.py, dataclass ConfigField,
lines 58-71).  The Python default of None for default/min_value/max_value is
PyVal.none / Option.none; options defaults to None, and an absent or empty
options list is falsy in the source's checks, so it is modelled as a plain
list whose emptiness stands for falsiness. -/
structure ConfigFieldD where
  key : String
  fieldType : String
  description : String := ""
  default : PyVal := .none
  required : Bool := false
  minValue : Option ℚ := Option.none
  maxValue : Option ℚ := Option.none
  options : List String := []
  restartRequired : Bool := false
  validationFunc : Option (PyVal → Bool) := Option.none
  category : String := "General"

/-- Association-list update with the lookup semantics of a Python dict
assignment d[k] = v. -/
def dictInsert {α : Type} (k : String) (v : α) (l : List (String × α)) :
    List (String × α) :=
  (k, v) :: l.filter (fun p => p.1 ≠ k)

/-- ConfigPanel state: the _fields and _values dicts and the _categories set
(hawk_advanced.py, ConfigPanel.__init__, lines 516-527).  Callbacks, file
persistence and the transport client are not part of the value-store state
the claims are about and carry no information into it. -/
structure PanelState where
  fields : List (String × ConfigFieldD)
  values : List (String × PyVal)
  categories : List String

/-- The empty panel. -/
def PanelState.empty : PanelState := ⟨[], [], []⟩

/-- Membership test of a key in a dict, Python's k in d. -/
def dictMem {α : Type} (k : String) (l : List (String × α)) : Bool :=
  (l.lookup k).isSome

/-- ConfigPanel._validate_value (hawk_advanced.py, lines 610-645), translated
branch for branch.  The local rebinding of value by the coercion branches is
the let-bound v1; every return False path and every caught exception yields
false. -/
def validateValue (f : ConfigFieldD) (v : PyVal) : Bool :=
  -- Type validation / coercion chain (elif chain in the source)
  let coerced : Option PyVal :=
    if f.fieldType = "integer" && !(isInstInt v) then
      (pyToInt v).map PyVal.int
    else if f.fieldType = "float" && !(isInstNum v) then
      (pyToFloat v).map PyVal.float
    else if f.fieldType = "boolean" && !(isInstBool v) then
      match v with
      | .str s => some (.bool (decide (strLower s ∈ ["true", "1", "yes", "on"])))
      | _ => Option.none
    else if f.fieldType = "enum" && !f.options.isEmpty
        && !(match v with | .str s => decide (s ∈ f.options) | _ => false) then
      Option.none
    else
      some v
  match coerced with
  | Option.none => false
  | some v1 =>
    -- Range validation (a TypeError inside a comparison is caught and
    -- yields false, via the Option)
    let minOk : Bool :=
      match f.minValue with
      | Option.none => true
      | some m => match pyLtNum v1 m with
                  | some true => false
                  | some false => true
                  | Option.none => false
    let maxOk : Bool :=
      match f.maxValue with
      | Option.none => true
      | some m => match pyGtNum v1 m with
                  | some true => false
                  | some false => true
                  | Option.none => false
    if !minOk then false
    else if !maxOk then false
    else
      -- Custom validation
      match f.validationFunc with
      | some g => g v1
      | Option.none => true

/-- ConfigPanel.add_field (hawk_advanced.py, lines 529-563): store the field
definition, record the category, and set the default value only when the key
has no value yet and the default is not None.  The emitted field-definition
envelope does not feed back into this state. -/
def addField (st : PanelState) (f : ConfigFieldD) : PanelState :=
  { fields := dictInsert f.key f st.fields
    values :=
      if !(dictMem f.key st.values) && f.default ≠ .none then
        dictInsert f.key f.default st.values
      else
        st.values
    categories :=
      if f.category ∈ st.categories then st.categories
      else f.category :: st.categories }

/-- ConfigPanel.set_value (hawk_advanced.py, lines 565-594): unknown keys
raise ValueError (Except.error); a validation failure returns false with the
state unchanged; success stores the ORIGINAL argument (not the coerced local
of _validate_value) and returns true. -/
def setValue (st : PanelState) (key : String) (v : PyVal)
    (validate : Bool := true) : Except String (Bool × PanelState) :=
  match st.fields.lookup key with
  | Option.none => .error ("Unknown configuration key: " ++ key)
  | some f =>
    if validate && !(validateValue f v) then
      .ok (false, st)
    else
      .ok (true, { st with values := dictInsert key v st.values })

/-- ConfigPanel.get_value (hawk_advanced.py, lines 596-599):
self._values.get(key, default). -/
def getValue (st : PanelState) (key : String) (default : PyVal := .none) :
    PyVal :=
  (st.values.lookup key).getD default

/-! ### Transport queue (hawk.py, HawkClient)

The message buffer is a bounded queue.Queue (hawk.py line 126, maxsize =
buffer_size * 2).  Messages are abstract: claims about the queue and the
flusher do not depend on their payload, so the definitions are generic in a
message type α. -/

/-- queue.Queue.put_nowait: fails (raises Full) exactly when the queue has a
positive maxsize and already holds maxsize items; Python treats maxsize <= 0
as unbounded. -/
def putNowait {α : Type} (cap : ℕ) (q : List α) (m : α) : Option (List α) :=
  if 0 < cap ∧ cap ≤ q.length then Option.none else some (q ++ [m])

/-- queue.Queue.get_nowait: removes and returns the oldest item, failing
(raising Empty) on an empty queue. -/
def getNowait {α : Type} : List α → Option (α × List α)
  | [] => Option.none
  | m :: rest => some (m, rest)

/-- HawkClient._send_message_async, thread-safe branch (hawk.py,
lines 279-306): try put_nowait; on Full, get_nowait the oldest and retry
put_nowait; on any further failure give up silently.  Every exception is
caught, so the function is total and returns the resulting queue. -/
def sendMessageAsync {α : Type} (cap : ℕ) (q : List α) (m : α) : List α :=
  match putNowait cap q m with
  | some q1 => q1
  | Option.none =>
    match getNowait q with
    | some (_, q1) =>
      match putNowait cap q1 m with
      | some q2 => q2
      | Option.none => q
    | Option.none => q

/-! ### Batch flusher (hawk.py, HawkClient._message_worker / _flush_batch) -/

/-- One write to the sink: a single message is serialized as one JSON-RPC
envelope object, two or more as a JSON array of envelopes
(hawk.py, _flush_batch, lines 234-261). -/
inductive FlushWrite (α : Type) where
  | single (m : α)
  | array (ms : List α)
  deriving DecidableEq, Repr

/-- Serialization shape chosen by _flush_batch for a non-empty batch. -/
def flushBatch {α : Type} (ms : List α) : FlushWrite α :=
  match ms with
  | [m] => .single m
  | _ => .array ms

/-- The messages carried by one write to the sink. -/
def writeMsgs {α : Type} : FlushWrite α → List α
  | .single m => [m]
  | .array ms => ms

/-- Worker configuration (hawk.py, HawkConfig, lines 61-70): the batch-size
threshold buffer_size (default 100) and flush_interval (default 0.1 s). -/
structure WorkerCfg where
  bufferSize : ℕ
  flushInterval : ℚ

/-- The buffer.get timeout in _message_worker (hawk.py line 210): 0.05 s,
the time that passes in an iteration that finds the queue empty.  An
iteration that finds a message ready returns immediately; its processing
time is idealized to zero. -/
def getTimeout : ℚ := 1 / 20

/-- State of the _message_worker loop (hawk.py, lines 201-232): the shared
queue, the local batch, the wall clock, the last_flush instant and the
sequence of writes performed so far. -/
structure WorkerState (α : Type) where
  queue : List α
  batch : List α
  now : ℚ
  lastFlush : ℚ
  out : List (FlushWrite α)
  deriving Repr

/-- One iteration of the _message_worker loop body (hawk.py, lines 206-226),
with shutdown false: take one message if available (otherwise wait out the
get timeout), then flush when the batch has reached buffer_size, or when the
batch is non-empty and flush_interval has elapsed since the last flush. -/
def workerStep {α : Type} (cfg : WorkerCfg) (s : WorkerState α) :
    WorkerState α :=
  let s1 :=
    match s.queue with
    | m :: rest => { s with queue := rest, batch := s.batch ++ [m] }
    | [] => { s with now := s.now + getTimeout }
  let shouldFlush : Bool :=
    decide (cfg.bufferSize ≤ s1.batch.length) ||
      (!s1.batch.isEmpty && decide (cfg.flushInterval ≤ s1.now - s1.lastFlush))
  if shouldFlush && !s1.batch.isEmpty then
    { s1 with
      batch := []
      lastFlush := s1.now
      out := s1.out ++ [flushBatch s1.batch] }
  else s1

/-- The worker loop run for n iterations. -/
def workerRun {α : Type} (cfg : WorkerCfg) : ℕ → WorkerState α → WorkerState α
  | 0, s => s
  | n + 1, s => workerRun cfg n (workerStep cfg s)

/-- Initial worker state over a queue of pending messages, with the clock at
the instant of the last flush (no interval elapsed yet). -/
def workerInit {α : Type} (msgs : List α) : WorkerState α :=
  ⟨msgs, [], 0, 0, []⟩

/-- All messages anywhere in the worker system: still queued, accumulated in
the batch, or already written to the sink. -/
def workerElems {α : Type} (s : WorkerState α) : List α :=
  s.queue ++ s.batch ++ (s.out.map writeMsgs).flatten

/-! ### Progress tracker (hawk_advanced.py, class ProgressTracker)

Wall-clock instants are rationals.  ProgressTracker.__init__ (lines 85-89)
creates self._lock = threading.Lock(), a NON-reentrant lock; the embedding
threads an explicit locked flag through every method so that a second
acquisition by the same thread can be observed as blocking. -/

/-- An active or historical progress record (the dict built by
ProgressTracker.start, lines 95-106, plus the completion fields added by
complete, lines 172-174). -/
structure ProgressRecord where
  label : String
  total : ℚ
  current : ℚ
  unit : String
  startTime : ℚ
  lastUpdate : ℚ
  parentId : Option String
  children : List String
  estimatedCompletion : Option ℚ
  endTime : Option ℚ := Option.none
  success : Option Bool := Option.none
  duration : Option ℚ := Option.none
  deriving DecidableEq, Repr

/-- Tracker state: the _active_progress and _progress_history dicts. -/
structure TrackerState where
  active : List (String × ProgressRecord)
  history : List (String × ProgressRecord)
  deriving DecidableEq, Repr

/-- Outcome of a call into the tracker: ok with the new state, blocked when
the thread tries to re-acquire the non-reentrant lock it already holds (the
call never returns), or fuelOut when the recursion bound is exhausted. -/
inductive CallResult where
  | ok (st : TrackerState)
  | blocked
  | fuelOut
  deriving DecidableEq, Repr

/-- ProgressTracker.complete (hawk_advanced.py, lines 158-191), with the
lock state explicit.  The body runs under "with self._lock"; the loop over
list(progress_data["children"]) recursively calls self.complete while the
lock is still held, and threading.Lock is not reentrant, so the recursive
call attempts a second acquisition: if locked is already true the call
blocks forever.  On success the record gains end_time/success/duration, is
stored in history and removed from active. -/
def completeAux (fuel : ℕ) (locked : Bool) (st : TrackerState) (id : String)
    (success : Bool) (now : ℚ) : CallResult :=
  match fuel with
  | 0 => .fuelOut
  | fuel + 1 =>
    if locked then .blocked
    else
      match st.active.lookup id with
      | Option.none => .ok st
      | some pd =>
        let afterChildren : CallResult :=
          pd.children.foldl
            (fun acc childId =>
              match acc with
              | .ok st1 => completeAux fuel true st1 childId success now
              | other => other)
            (.ok st)
        match afterChildren with
        | .ok st2 =>
          let pd2 := { pd with
            endTime := some now
            success := some success
            duration := some (now - pd.startTime)
            estimatedCompletion := pd.estimatedCompletion }
          .ok { active := st2.active.filter (fun p => p.1 ≠ id)
                history := dictInsert id pd2 st2.history }
        | other => other

/-- The public complete call: the calling thread does not yet hold the
tracker's lock. -/
def completeCall (fuel : ℕ) (st : TrackerState) (id : String)
    (success : Bool) (now : ℚ) : CallResult :=
  completeAux fuel false st id success now

/-- ProgressTracker.update, state part (hawk_advanced.py, lines 118-139):
record the new current and last_update, then, when elapsed > 0 and
current > 0 and the rate current/elapsed is positive, set
estimated_completion to now + remaining/rate. -/
def updateRecord (pd : ProgressRecord) (current now : ℚ) : ProgressRecord :=
  let pd1 := { pd with current := current, lastUpdate := now }
  let elapsed := pd1.lastUpdate - pd1.startTime
  if 0 < elapsed ∧ 0 < current then
    let rate := current / elapsed
    let remaining := pd1.total - current
    if 0 < rate then
      { pd1 with estimatedCompletion := some (now + remaining / rate) }
    else pd1
  else pd1

/-- The progress envelope parameters emitted by ProgressTracker.update
(hawk_advanced.py, lines 141-156): current, the record's total, and the
record's estimated_completion when one is set. -/
structure ProgressEnvelope where
  id : String
  label : String
  current : ℚ
  total : ℚ
  estimatedCompletion : Option ℚ
  deriving DecidableEq, Repr

/-- ProgressTracker.update on the tracker state: an unknown id is a no-op
emitting nothing; otherwise the record is updated in place and one progress
envelope is emitted from the updated record. -/
def trackerUpdate (st : TrackerState) (id : String) (current now : ℚ) :
    TrackerState × Option ProgressEnvelope :=
  match st.active.lookup id with
  | Option.none => (st, Option.none)
  | some pd =>
    let pd1 := updateRecord pd current now
    ({ st with active := dictInsert id pd1 st.active },
     some ⟨id, pd1.label, current, pd1.total, pd1.estimatedCompletion⟩)

/-! ### Dashboard auto-layout and refresh scheduling
(hawk_advanced.py, class Dashboard) -/

/-- A widget layout dict.  Python passes these as plain dicts whose key set
varies: DashboardWidget.__init__ (line 422) builds one from the add_* call's
layout kwargs or, when none are given, the two-key dict
width=4, height=3; WidgetConfig.__post_init__ (lines 53-55) would build the
four-key dict row=0, col=0, width=4, height=3 but only when the layout passed
is None.  Absent keys are Option.none, so Python dict equality is structural
equality here. -/
structure LayoutDict where
  row : Option ℤ
  col : Option ℤ
  width : Option ℤ
  height : Option ℤ
  deriving DecidableEq, Repr

/-- The layout a widget gets when its add_* call passes no layout kwargs
(DashboardWidget.__init__, line 422: layout_kwargs or width 4, height 3). -/
def defaultWidgetLayout : LayoutDict :=
  ⟨Option.none, Option.none, some 4, some 3⟩

/-- The sentinel Dashboard._add_widget compares against to decide whether to
auto-place a widget (hawk_advanced.py, line 313). -/
def autoLayoutSentinel : LayoutDict := ⟨some 0, some 0, some 4, some 3⟩

/-- Dashboard auto-layout cursor (hawk_advanced.py, __init__ lines 266-269):
_next_row, _next_col, _max_cols = 12. -/
structure LayoutState where
  nextRow : ℤ
  nextCol : ℤ
  maxCols : ℤ
  deriving DecidableEq, Repr

/-- The dashboard's initial layout cursor. -/
def initLayout : LayoutState := ⟨0, 0, 12⟩

/-- Dashboard._auto_layout (hawk_advanced.py, lines 332-346): wrap to a new
row (advancing by the incoming widget's height) when the pending column
offset plus the width would exceed _max_cols, emit the position, then
advance the column offset by the width. -/
def autoLayout (s : LayoutState) (width height : ℤ) :
    LayoutDict × LayoutState :=
  let s1 :=
    if s.maxCols < s.nextCol + width then
      { s with nextRow := s.nextRow + height, nextCol := 0 }
    else s
  (⟨some s1.nextRow, some s1.nextCol, some width, some height⟩,
   { s1 with nextCol := s1.nextCol + width })

/-- The layout-assignment step of Dashboard._add_widget (hawk_advanced.py,
lines 310-315): the widget's layout is replaced by an auto-assigned one only
when it equals the four-key sentinel dict exactly; otherwise it is kept as
is and the cursor does not move.  Widths/heights default to 4/3 when the
dict lacks them (they never lack them on the paths the source builds). -/
def addWidgetLayout (s : LayoutState) (l : LayoutDict) :
    LayoutDict × LayoutState :=
  if l = autoLayoutSentinel then
    autoLayout s (l.width.getD 4) (l.height.getD 3)
  else (l, s)

/-- Fold of addWidgetLayout over a list of incoming widget layouts,
returning the assigned layouts in order. -/
def addWidgetsLayout (s : LayoutState) : List LayoutDict →
    List LayoutDict × LayoutState
  | [] => ([], s)
  | l :: rest =>
    let (l1, s1) := addWidgetLayout s l
    let (ls, s2) := addWidgetsLayout s1 rest
    (l1 :: ls, s2)

/-- Fold of plain autoLayout over (width, height) requests, the placements
the spec's auto-layout example is about. -/
def autoLayoutSeq (s : LayoutState) : List (ℤ × ℤ) →
    List LayoutDict × LayoutState
  | [] => ([], s)
  | (w, h) :: rest =>
    let (l1, s1) := autoLayout s w h
    let (ls, s2) := autoLayoutSeq s1 rest
    (l1 :: ls, s2)

/-- The per-widget state the refresh loop reads (WidgetConfig, lines 43-55):
only the enabled flag matters to the loop condition. -/
structure WidgetState where
  widgetId : String
  enabled : Bool
  deriving DecidableEq, Repr

/-- Dashboard state as seen by remove_widget and the refresh workers:
the _widgets and _refresh_threads dicts and the _shutdown flag
(hawk_advanced.py, __init__ lines 258-264). -/
structure DashState where
  shutdown : Bool
  widgets : List (String × WidgetState)
  refreshThreads : List String
  deriving DecidableEq, Repr

/-- Dashboard.remove_widget (hawk_advanced.py, lines 390-397): delete the
widget from _widgets and its entry from _refresh_threads.  Nothing else is
touched: in particular the widget object's enabled flag and the _shutdown
flag are left as they are. -/
def removeWidget (st : DashState) (id : String) : DashState :=
  { st with
    widgets := st.widgets.filter (fun p => p.1 ≠ id)
    refreshThreads := st.refreshThreads.filter (fun x => x ≠ id) }

/-- The continuation condition of Dashboard._refresh_worker
(hawk_advanced.py, line 350): while not self._shutdown and
widget.config.enabled.  The worker holds a direct reference to the widget
object; membership of the widget in _widgets is not consulted. -/
def refreshLoopContinues (st : DashState) (w : WidgetState) : Bool :=
  !st.shutdown && w.enabled

/-- Envelopes the refresh worker emits in its next n iterations for widget w
(each iteration whose loop condition holds emits one hawk.dashboard envelope
for w via _send_widget_update, lines 355-358 and 376-388). -/
def refreshEmissions (st : DashState) (w : WidgetState) : ℕ → List String
  | 0 => []
  | n + 1 =>
    if refreshLoopContinues st w then
      w.widgetId :: refreshEmissions st w n
    else []

/-! ### Audit logger (hawk_advanced.py, class AuditLogger)

An audit event is the dict built by _log_audit_event (lines 942-950) with
keys timestamp, session_id, sequence, event_type, data, source_ip, checksum.
The data payload is itself a flat dict of strings, which covers the records
built by log_access / log_config_change / log_command for string-valued
details.  The checksum function (sha256 then hexdigest truncated to 16
characters in the source) is kept abstract as a parameter h : String → String
since only which STRING is hashed matters to the claims.  The serializer
below reproduces Python's json.dumps with sort_keys=True and default
separators for these fixed key sets, for strings free of characters that
json.dumps would escape. -/

/-- An audit event's checksum-free content. -/
structure AuditEvent where
  timestamp : String
  sessionId : String
  sequence : ℕ
  eventType : String
  data : List (String × String)
  sourceIp : String
  deriving DecidableEq, Repr

/-- Lexicographic comparison of character lists, the order Python's sorted
uses on (ASCII) strings. -/
def charListLe : List Char → List Char → Bool
  | [], _ => true
  | _ :: _, [] => false
  | a :: as, b :: bs =>
    if a < b then true else if b < a then false else charListLe as bs

/-- String order used when sorting JSON object keys. -/
def strLe (a b : String) : Bool := charListLe a.data b.data

/-- Ordered insertion by key, ascending. -/
def insertSorted (p : String × String) :
    List (String × String) → List (String × String)
  | [] => [p]
  | q :: rest =>
    if strLe p.1 q.1 then p :: q :: rest else q :: insertSorted p rest

/-- Insertion sort by key: the ascending key order that
json.dumps(sort_keys=True) serializes object entries in. -/
def sortByKey : List (String × String) → List (String × String)
  | [] => []
  | p :: rest => insertSorted p (sortByKey rest)

/-- JSON rendering of a string (no escaping; callers use plain text). -/
def jstr (s : String) : String := "\"" ++ s ++ "\""

/-- One key-value entry of a JSON object, with json.dumps's default
key-value separator. -/
def jentry (k v : String) : String := jstr k ++ ": " ++ v

/-- Joining of rendered entries with json.dumps's default item
separator. -/
def jjoin : List String → String
  | [] => ""
  | [x] => x
  | x :: y :: rest => x ++ ", " ++ jjoin (y :: rest)

/-- A JSON object from already-rendered entries. -/
def jobj (entries : List String) : String :=
  "\x7b" ++ jjoin entries ++ "\x7d"

/-- The data payload rendered as json.dumps(data, sort_keys=True) renders a
flat string dict: keys in sorted order. -/
def dumpsData (d : List (String × String)) : String :=
  jobj ((sortByKey d).map (fun p => jentry p.1 (jstr p.2)))

/-- json.dumps(event, sort_keys=True) for the event dict of
_log_audit_event.  The sorted order of its seven keys is
checksum < data < event_type < sequence < session_id < source_ip <
timestamp; the checksum entry renders as null when the field still holds
None and as a string once set. -/
def dumpsEventSorted (e : AuditEvent) (checksum : Option String) : String :=
  jobj [
    jentry "checksum" (match checksum with
      | Option.none => "null"
      | some c => jstr c),
    jentry "data" (dumpsData e.data),
    jentry "event_type" (jstr e.eventType),
    jentry "sequence" (toString e.sequence),
    jentry "session_id" (jstr e.sessionId),
    jentry "source_ip" (jstr e.sourceIp),
    jentry "timestamp" (jstr e.timestamp)]

/-- The string _log_audit_event hashes when it computes the stored checksum
(hawk_advanced.py, lines 952-954): the full event dict serialized while its
checksum field still holds None. -/
def writeChecksumInput (e : AuditEvent) : String :=
  dumpsEventSorted e Option.none

/-- The checksum stored in the record appended to the audit file
(hawk_advanced.py, line 954). -/
def storedChecksum (h : String → String) (e : AuditEvent) : String :=
  h (writeChecksumInput e)

/-- The string verify_integrity hashes when it recomputes a line's checksum
(hawk_advanced.py, lines 991-995): the parsed event AFTER pop("checksum"),
i.e. the six remaining keys serialized with sort_keys=True.  Unlike the
write side, no checksum entry is present at all. -/
def verifyChecksumInput (e : AuditEvent) : String :=
  jobj [
    jentry "data" (dumpsData e.data),
    jentry "event_type" (jstr e.eventType),
    jentry "sequence" (toString e.sequence),
    jentry "session_id" (jstr e.sessionId),
    jentry "source_ip" (jstr e.sourceIp),
    jentry "timestamp" (jstr e.timestamp)]

/-- An uncorrupted line of the audit file, as written by _log_audit_event:
the event content together with the checksum stored for it. -/
def writtenRecord (h : String → String) (e : AuditEvent) :
    AuditEvent × String :=
  (e, storedChecksum h e)

/-- The per-line test of verify_integrity (hawk_advanced.py, lines 988-1001):
the stored checksum equals the checksum recomputed over the popped event. -/
def recordVerifies (h : String → String) (rec : AuditEvent × String) : Bool :=
  rec.2 == h (verifyChecksumInput rec.1)

/-- AuditLogger.verify_integrity's counters over a list of parsed lines
(hawk_advanced.py, lines 977-1014): how many lines verify and how many are
corrupted. -/
def verifyIntegrity (h : String → String) (lines : List (AuditEvent × String)) :
    ℕ × ℕ :=
  (lines.countP (fun r => recordVerifies h r),
   lines.countP (fun r => !recordVerifies h r))

/-! ### Concrete inputs used by examples and witnesses -/

/-- Observable outcome of a set_value followed by a get_value on the same
key: the returned success flag and the value subsequently read, or
Option.none when set_value raised. -/
def setResult (st : PanelState) (key : String) (v : PyVal) :
    Option (Bool × PyVal) :=
  match setValue st key v with
  | .ok (b, st1) => some (b, getValue st1 key)
  | .error _ => Option.none

/-- The integer field of the spec's config-validation example:
add_field("n", "integer", default=5, min_value=1, max_value=10). -/
def c5Field : ConfigFieldD :=
  { key := "n", fieldType := "integer", default := .int 5,
    minValue := some 1, maxValue := some 10 }

/-- Panel holding that field, with its default in place. -/
def c5Panel : PanelState := addField .empty c5Field

/-- A re-registration of the same key with different metadata and a
different default, for the add_field idempotence example. -/
def c9Field : ConfigFieldD :=
  { key := "n", fieldType := "integer", description := "re-added",
    default := .int 9, minValue := some 0, maxValue := some 99 }

/-- A parent progress record with one registered child, as produced by
start("p", ...) followed by start("c", ..., parent_id="p"). -/
def c4Parent : ProgressRecord :=
  { label := "Parent task", total := 10, current := 0, unit := "",
    startTime := 0, lastUpdate := 0, parentId := Option.none,
    children := ["c"], estimatedCompletion := Option.none }

/-- The child record registered under the parent. -/
def c4Child : ProgressRecord :=
  { label := "Child task", total := 4, current := 0, unit := "",
    startTime := 1, lastUpdate := 1, parentId := some "p",
    children := [], estimatedCompletion := Option.none }

/-- Tracker state with the parent and child both active. -/
def c4State : TrackerState :=
  ⟨[("p", c4Parent), ("c", c4Child)], []⟩

/-- A record with no children, for the contrast case. -/
def c4Solo : ProgressRecord :=
  { label := "Solo task", total := 3, current := 3, unit := "",
    startTime := 0, lastUpdate := 2, parentId := Option.none,
    children := [], estimatedCompletion := Option.none }

/-- Tracker state with only the childless record active. -/
def c4SoloState : TrackerState := ⟨[("s", c4Solo)], []⟩

/-- The childless record as complete leaves it in the history when called at
time 5 with success. -/
def c4SoloDone : ProgressRecord :=
  { c4Solo with endTime := some 5, success := some true, duration := some 5 }

/-- A live widget and a dashboard state containing it, for the
remove_widget example. -/
def c8Widget : WidgetState := ⟨"cpu_usage", true⟩

/-- Dashboard state with that widget registered and running. -/
def c8State : DashState := ⟨false, [("cpu_usage", c8Widget)], ["cpu_usage"]⟩

/-- An active progress record as produced by start("t", "Transfer", 10)
at time 0, for the ETA example. -/
def c7Record : ProgressRecord :=
  { label := "Transfer", total := 10, current := 0, unit := "items",
    startTime := 0, lastUpdate := 0, parentId := Option.none,
    children := [], estimatedCompletion := Option.none }

/-- Tracker state with that record active. -/
def c7State : TrackerState := ⟨[("t", c7Record)], []⟩

/-- A concrete audit event as built by
log_config_change("alice", "port", 80, 8080). -/
def c1Event : AuditEvent :=
  { timestamp := "2024-01-01T00:00:00+00:00"
    sessionId := "3f2c9a10-0000-0000-0000-000000000000"
    sequence := 1
    eventType := "config_change"
    data := [("user", "alice"), ("config_key", "port"),
             ("old_value", "80"), ("new_value", "8080")]
    sourceIp := "127.0.0.1" }

/-! ## Theorems -/

theorem lookup_dictInsert_self {α : Type} (k : String) (v : α)
    (l : List (String × α)) : (dictInsert k v l).lookup k = some v := by
  simp [dictInsert, List.lookup]

theorem getValue_dictInsert_self (st : PanelState) (k : String) (v : PyVal) :
    getValue { st with values := dictInsert k v st.values } k = v := by
  simp [getValue, lookup_dictInsert_self]

/-- C5: set_value validates and is all-or-nothing: a validation failure
leaves the stored values untouched and returns false without raising, while
success returns true and stores the value.  In particular, after
add_field("n","integer",default=5,min_value=1,max_value=10), set_value with
15 fails and get_value still reads 5, while set_value with 7 succeeds and
get_value reads 7. -/
theorem setValue_all_or_nothing (st : PanelState) (key : String)
    (f : ConfigFieldD) (v : PyVal) (hf : st.fields.lookup key = some f) :
    (validateValue f v = false → setValue st key v = .ok (false, st)) ∧
    (validateValue f v = true →
      setValue st key v
        = .ok (true, { st with values := dictInsert key v st.values }) ∧
      getValue { st with values := dictInsert key v st.values } key = v) ∧
    validateValue c5Field (.int 15) = false ∧
    validateValue c5Field (.int 7) = true ∧
    getValue c5Panel "n" = .int 5 ∧
    setResult c5Panel "n" (.int 15) = some (false, .int 5) ∧
    setResult c5Panel "n" (.int 7) = some (true, .int 7) := by
  refine ⟨?_, ?_, by decide, by decide, by decide, by decide, by decide⟩
  · intro hval
    simp [setValue, hf, hval]
  · intro hval
    exact ⟨by simp [setValue, hf, hval], getValue_dictInsert_self st key v⟩

theorem setValue_all_or_nothing_witness :
    c5Panel.fields.lookup "n" = some c5Field ∧
    (validateValue c5Field (.int 15) = false →
      setValue c5Panel "n" (.int 15) = .ok (false, c5Panel)) := by
  have h := setValue_all_or_nothing c5Panel "n" c5Field (.int 15) (by rfl)
  exact ⟨by rfl, fun _ => h.1 (by decide)⟩

/-- C9: re-registering an existing key with add_field replaces only the
field metadata; whatever value is already stored for the key is left
unchanged, in particular it is not overwritten by the new call's default. -/
theorem addField_readd_preserves_value (st : PanelState) (f : ConfigFieldD)
    (hmem : dictMem f.key st.values = true) :
    (addField st f).values = st.values ∧
    (addField st f).fields.lookup f.key = some f ∧
    getValue (addField st f) f.key = getValue st f.key := by
  have hv : (addField st f).values = st.values := by
    simp [addField, hmem]
  refine ⟨hv, by simp [addField, lookup_dictInsert_self], ?_⟩
  simp [getValue, hv]

theorem addField_readd_witness :
    dictMem "n" c5Panel.values = true ∧
    (addField c5Panel c9Field).values = c5Panel.values ∧
    getValue (addField c5Panel c9Field) "n" = getValue c5Panel "n" := by
  have h := addField_readd_preserves_value c5Panel c9Field (by decide)
  exact ⟨by decide, h.1, h.2.2⟩

/-- C10: the coercion performed during validation is applied to a local
copy only: for an integer field, set_value with a coercible in-range string
returns success yet stores the original uncoerced string, which get_value
then returns; concretely, set_value("n","7") on the example field succeeds
and get_value("n") is the string "7", not the integer 7. -/
theorem setValue_keeps_uncoerced_string (st : PanelState) (key s : String)
    (lo hi : ℚ) (n : ℤ) (f : ConfigFieldD)
    (hf : st.fields.lookup key = some f)
    (hft : f.fieldType = "integer")
    (hvf : f.validationFunc = Option.none)
    (hmin : f.minValue = some lo) (hmax : f.maxValue = some hi)
    (hparse : pyIntOfString s = some n)
    (hlo : lo ≤ (n : ℚ)) (hhi : (n : ℚ) ≤ hi) :
    validateValue f (.str s) = true ∧
    setValue st key (.str s)
      = .ok (true, { st with values := dictInsert key (.str s) st.values }) ∧
    getValue { st with values := dictInsert key (.str s) st.values } key
      = .str s ∧
    PyVal.str s ≠ .int n ∧
    setResult c5Panel "n" (.str "7") = some (true, .str "7") := by
  have h1 : decide ((n : ℚ) < lo) = false := decide_eq_false (not_lt.mpr hlo)
  have h2 : decide (hi < (n : ℚ)) = false := decide_eq_false (not_lt.mpr hhi)
  have hval : validateValue f (.str s) = true := by
    simp [validateValue, hft, hvf, hmin, hmax, isInstInt, pyToInt, hparse,
      pyLtNum, pyGtNum, pyNum, h1, h2]
  refine ⟨hval, by simp [setValue, hf, hval],
    getValue_dictInsert_self st key (.str s), by simp, by decide⟩

theorem lookup_filter_ne {α : Type} (k : String) (l : List (String × α)) :
    (l.filter (fun p => p.1 ≠ k)).lookup k = Option.none := by
  induction l with
  | nil => rfl
  | cons p t ih =>
    obtain ⟨pk, pv⟩ := p
    by_cases hp : pk = k
    · simpa [List.filter_cons, hp] using ih
    · have hk : (k == pk) = false := beq_eq_false_iff_ne.mpr (Ne.symm hp)
      simpa [List.filter_cons, hp, List.lookup, hk] using ih

/-- The refresh loop of a widget whose condition holds emits one envelope
per iteration, unconditionally forever. -/
theorem refreshEmissions_of_continues (st : DashState) (w : WidgetState)
    (h : refreshLoopContinues st w = true) (m : ℕ) :
    refreshEmissions st w m = List.replicate m w.widgetId := by
  induction m with
  | zero => rfl
  | succ n ih => simp [refreshEmissions, h, ih, List.replicate]

/-- C7: for an active record, update with current > 0 and elapsed =
now - start_time > 0 sets the estimated completion to
now + (total - current) / (current / elapsed) and emits a progress envelope
carrying current, total and that ETA; with current <= 0 or elapsed <= 0 no
ETA is computed. -/
theorem progress_update_eta (st : TrackerState) (id : String)
    (pd : ProgressRecord) (current now : ℚ)
    (hpd : st.active.lookup id = some pd) :
    (0 < current → 0 < now - pd.startTime →
      (updateRecord pd current now).estimatedCompletion
        = some (now + (pd.total - current) / (current / (now - pd.startTime)))
        ∧
      (trackerUpdate st id current now).2
        = some ⟨id, pd.label, current, pd.total,
            some (now + (pd.total - current) /
              (current / (now - pd.startTime)))⟩) ∧
    ((current ≤ 0 ∨ now - pd.startTime ≤ 0) →
      (updateRecord pd current now).estimatedCompletion
        = pd.estimatedCompletion) := by
  constructor
  · intro hc he
    have hrate : 0 < current / (now - pd.startTime) := div_pos hc he
    have h1 : (updateRecord pd current now).estimatedCompletion
        = some (now + (pd.total - current) /
            (current / (now - pd.startTime))) := by
      simp [updateRecord, he, hc, hrate]
    have hl : (updateRecord pd current now).label = pd.label := by
      simp only [updateRecord]
      split <;> rfl
    have ht : (updateRecord pd current now).total = pd.total := by
      simp only [updateRecord]
      split <;> rfl
    refine ⟨h1, ?_⟩
    simp [trackerUpdate, hpd, h1, hl, ht]
  · intro h
    have hcond : ¬ (0 < now - pd.startTime ∧ 0 < current) := by
      rcases h with h | h
      · exact fun hx => absurd hx.2 (not_lt.mpr h)
      · exact fun hx => absurd hx.1 (not_lt.mpr h)
    simp only [updateRecord]
    rw [if_neg hcond]

theorem progress_update_eta_witness :
    (updateRecord c7Record 5 5).estimatedCompletion = some 10 ∧
    (trackerUpdate c7State "t" 5 5).2
      = some ⟨"t", "Transfer", 5, 10, some 10⟩ := by
  have h1 := (progress_update_eta c7State "t" c7Record 5 5 (by rfl)).1
    (by norm_num) (by norm_num [c7Record])
  constructor
  · rw [h1.1]
    norm_num [c7Record]
  · rw [h1.2]
    norm_num [c7Record]

/-- C6 counterexample: on the 12-column grid, three widgets of width 5 are
not placed at columns 0, 5 and 10 of row 0: the third wraps, because
10 + 5 exceeds 12.  Moreover a widget added without explicit position keeps
the two-key default layout dict width=4,height=3, which never equals the
four-key sentinel _add_widget compares against, so it is not repositioned
at all. -/
theorem autoLayout_counterexample :
    ((autoLayoutSeq initLayout [(5, 3), (5, 3), (5, 3)]).1.map
        (fun l => (l.row, l.col))
      = [(some 0, some 0), (some 0, some 5), (some 3, some 0)]) ∧
    ¬ ((autoLayoutSeq initLayout [(5, 3), (5, 3), (5, 3)]).1.map
        (fun l => (l.row, l.col))
      = [(some 0, some 0), (some 0, some 5), (some 0, some 10)]) ∧
    addWidgetLayout initLayout defaultWidgetLayout
      = (defaultWidgetLayout, initLayout) := by
  exact ⟨by decide, by decide, by decide⟩

/-- C6 amended: _auto_layout places widgets left-to-right and wraps to a new
row (column reset to 0, row offset advanced by the incoming widget's height)
exactly when the running column offset plus the width would exceed the
column count; a placed widget whose width fits the grid never overflows it;
and four width-5 widgets land at (row,col) = (0,0), (0,5), (3,0), (3,5). -/
theorem autoLayout_wraps (s : LayoutState) (w h : ℤ) :
    (s.nextCol + w ≤ s.maxCols →
      autoLayout s w h
        = (⟨some s.nextRow, some s.nextCol, some w, some h⟩,
           ⟨s.nextRow, s.nextCol + w, s.maxCols⟩)) ∧
    (s.maxCols < s.nextCol + w →
      autoLayout s w h
        = (⟨some (s.nextRow + h), some 0, some w, some h⟩,
           ⟨s.nextRow + h, w, s.maxCols⟩)) ∧
    (w ≤ s.maxCols →
      ∀ c, (autoLayout s w h).1.col = some c → c + w ≤ s.maxCols) ∧
    (autoLayoutSeq initLayout [(5, 3), (5, 3), (5, 3), (5, 3)]).1.map
        (fun l => (l.row, l.col))
      = [(some 0, some 0), (some 0, some 5), (some 3, some 0),
         (some 3, some 5)] := by
  refine ⟨?_, ?_, ?_, by decide⟩
  · intro hle
    simp [autoLayout, not_lt.mpr hle]
  · intro hgt
    simp [autoLayout, hgt]
  · intro hw c hc
    by_cases hcase : s.maxCols < s.nextCol + w
    · simp [autoLayout, hcase] at hc
      omega
    · simp [autoLayout, hcase] at hc
      omega

theorem autoLayout_wraps_witness :
    autoLayout initLayout 5 3
      = (⟨some 0, some 0, some 5, some 3⟩, ⟨0, 5, 12⟩) ∧
    autoLayout ⟨0, 10, 12⟩ 5 3
      = (⟨some 3, some 0, some 5, some 3⟩, ⟨3, 5, 12⟩) ∧
    (∀ c, (autoLayout ⟨0, 10, 12⟩ 5 3).1.col = some c → c + 5 ≤ 12) := by
  refine ⟨(autoLayout_wraps initLayout 5 3).1 (by decide),
    (autoLayout_wraps ⟨0, 10, 12⟩ 5 3).2.1 (by decide),
    (autoLayout_wraps ⟨0, 10, 12⟩ 5 3).2.2.1 (by decide)⟩

/-- C8 (code bug): remove_widget removes the widget from the _widgets and
_refresh_threads dicts but the refresh loop's continuation condition (not
shutdown and widget.config.enabled) never consults them, so after removal
the loop still runs and keeps emitting a dashboard envelope for the removed
widget id on every iteration. -/
theorem removeWidget_loop_keeps_emitting (st : DashState) (w : WidgetState)
    (n : ℕ) (hsd : st.shutdown = false) (hen : w.enabled = true) :
    (removeWidget st w.widgetId).widgets.lookup w.widgetId = Option.none ∧
    refreshLoopContinues (removeWidget st w.widgetId) w = true ∧
    refreshEmissions (removeWidget st w.widgetId) w (n + 1)
      = List.replicate (n + 1) w.widgetId := by
  have hcont : refreshLoopContinues (removeWidget st w.widgetId) w = true := by
    simp [refreshLoopContinues, removeWidget, hsd, hen]
  exact ⟨lookup_filter_ne w.widgetId st.widgets, hcont,
    refreshEmissions_of_continues _ w hcont (n + 1)⟩

theorem removeWidget_loop_witness :
    (removeWidget c8State "cpu_usage").widgets.lookup "cpu_usage"
      = Option.none ∧
    refreshEmissions (removeWidget c8State "cpu_usage") c8Widget 3
      = ["cpu_usage", "cpu_usage", "cpu_usage"] := by
  have h := removeWidget_loop_keeps_emitting c8State c8Widget 2
    (by rfl) (by rfl)
  exact ⟨h.1, h.2.2⟩

/-- C4 (code bug): ProgressTracker.complete acquires the non-reentrant
tracker lock and, still holding it, recursively calls itself on every
registered child; the recursive call tries to acquire the same lock and
blocks forever, so completing a parent with a registered child never
terminates and neither record reaches the history.  A record without
children, by contrast, completes and moves to history. -/
theorem complete_parent_with_child_blocks (fuel : ℕ) (success : Bool)
    (now : ℚ) :
    completeCall (fuel + 2) c4State "p" success now = .blocked ∧
    completeCall 1 c4SoloState "s" true 5 = .ok ⟨[], [("s", c4SoloDone)]⟩ := by
  refine ⟨rfl, ?_⟩
  norm_num [completeCall, completeAux, c4SoloState, c4Solo, c4SoloDone,
    dictInsert]

theorem setValue_keeps_uncoerced_witness :
    setValue c5Panel "n" (.str "7")
      = .ok (true,
          { c5Panel with values := dictInsert "n" (.str "7") c5Panel.values })
      ∧
    getValue { c5Panel with
        values := dictInsert "n" (.str "7") c5Panel.values } "n"
      = .str "7" := by
  have h := setValue_keeps_uncoerced_string c5Panel "n" "7" 1 10 7 c5Field
    (by rfl) (by rfl) (by rfl) (by rfl) (by rfl) (by rfl)
    (by norm_num) (by norm_num)
  exact ⟨h.2.1, h.2.2.1⟩

/-! ### Worker-loop lemmas shared by the transport-queue and batch-flusher
claims -/

theorem workerRun_succ_last {α : Type} (cfg : WorkerCfg) (n : ℕ)
    (s : WorkerState α) :
    workerRun cfg (n + 1) s = workerStep cfg (workerRun cfg n s) := by
  induction n generalizing s with
  | zero => rfl
  | succ n ih =>
    show workerRun cfg (n + 1) (workerStep cfg s) = _
    rw [ih]
    rfl

theorem workerRun_add {α : Type} (cfg : WorkerCfg) (a b : ℕ)
    (s : WorkerState α) :
    workerRun cfg (a + b) s = workerRun cfg b (workerRun cfg a s) := by
  induction a generalizing s with
  | zero =>
    rw [Nat.zero_add]
    rfl
  | succ a ih =>
    have h1 : a + 1 + b = (a + b) + 1 := by omega
    rw [h1]
    show workerRun cfg (a + b) (workerStep cfg s) = _
    rw [ih (workerStep cfg s)]
    rfl

theorem workerRun_idle {α : Type} (cfg : WorkerCfg) (j : ℕ)
    (s : WorkerState α) (hq : s.queue = []) (hb : s.batch = []) :
    (workerRun cfg j s).queue = [] ∧ (workerRun cfg j s).batch = [] ∧
    (workerRun cfg j s).out = s.out := by
  induction j generalizing s with
  | zero => exact ⟨hq, hb, rfl⟩
  | succ j ih =>
    have hstep : workerStep cfg s = { s with now := s.now + getTimeout } := by
      simp [workerStep, hq, hb]
    have hrun : workerRun cfg (j + 1) s
        = workerRun cfg j { s with now := s.now + getTimeout } := by
      show workerRun cfg j (workerStep cfg s) = _
      rw [hstep]
    rw [hrun]
    exact ih { s with now := s.now + getTimeout } hq hb

theorem workerRun_fill (cfg : WorkerCfg) (msgs : List ℕ)
    (hint : 0 < cfg.flushInterval) :
    ∀ i, i ≤ msgs.length → i < cfg.bufferSize →
      workerRun cfg i (workerInit msgs)
        = ⟨msgs.drop i, msgs.take i, 0, 0, []⟩ := by
  intro i
  induction i with
  | zero => intro _ _; rfl
  | succ i ih =>
    intro hle hbuf
    have hi_len : i < msgs.length := hle
    rw [workerRun_succ_last, ih (by omega) (by omega)]
    have hdrop : msgs.drop i = msgs[i] :: msgs.drop (i + 1) :=
      List.drop_eq_getElem_cons hi_len
    have htake : msgs.take i ++ [msgs[i]] = msgs.take (i + 1) := by
      rw [List.take_succ, List.getElem?_eq_getElem hi_len]
      rfl
    have hflen : (msgs.take (i + 1)).length = i + 1 := by
      rw [List.length_take]
      omega
    have hb1 : decide (cfg.bufferSize ≤ (msgs.take (i + 1)).length)
        = false := by
      rw [hflen]
      exact decide_eq_false (by omega)
    have ht1 : decide (cfg.flushInterval ≤ (0 : ℚ)) = false :=
      decide_eq_false (not_le.mpr hint)
    simp only [workerStep, hdrop, htake, sub_zero, hb1, ht1,
      Bool.and_false, Bool.false_or, Bool.false_and, if_false,
      Bool.or_false]
    rfl

theorem workerRun_threshold_flush (cfg : WorkerCfg) (msgs : List ℕ)
    (hint : 0 < cfg.flushInterval) (hlen : msgs.length = cfg.bufferSize)
    (h2 : 2 ≤ msgs.length) :
    ∀ k, msgs.length ≤ k →
      (workerRun cfg k (workerInit msgs)).out = [.array msgs] := by
  have hstate : workerRun cfg msgs.length (workerInit msgs)
      = ⟨[], [], 0, 0, [FlushWrite.array msgs]⟩ := by
    obtain ⟨n, hn⟩ : ∃ n, msgs.length = n + 1 := ⟨msgs.length - 1, by omega⟩
    have hn_len : n < msgs.length := by omega
    rw [hn, workerRun_succ_last,
      workerRun_fill cfg msgs hint n (by omega) (by omega)]
    have hdrop : msgs.drop n = msgs[n] :: msgs.drop (n + 1) :=
      List.drop_eq_getElem_cons hn_len
    have hdropnil : msgs.drop (n + 1) = [] := by
      rw [List.drop_eq_nil_iff]
      omega
    have htake : msgs.take n ++ [msgs[n]] = msgs.take (n + 1) := by
      rw [List.take_succ, List.getElem?_eq_getElem hn_len]
      rfl
    have htake_all : msgs.take (n + 1) = msgs := by
      rw [← hn]
      exact List.take_length msgs
    have hb1 : decide (cfg.bufferSize ≤ msgs.length) = true :=
      decide_eq_true (by omega)
    have hne : msgs.isEmpty = false := by
      rw [List.isEmpty_eq_false]
      intro hnil
      rw [hnil] at h2
      simp at h2
    have hflush : flushBatch msgs = .array msgs := by
      match msgs, h2 with
      | a :: b :: t, _ => rfl
    simp only [workerStep, hdrop, hdropnil, htake, htake_all, hb1, hne,
      Bool.true_or, Bool.not_false, Bool.true_and, if_true, hflush]
    rfl
  intro k hk
  obtain ⟨j, hj⟩ : ∃ j, k = msgs.length + j := ⟨k - msgs.length, by omega⟩
  rw [hj, workerRun_add, hstate]
  exact (workerRun_idle cfg j _ rfl rfl).2.2

theorem workerRun_partial_flush (cfg : WorkerCfg) (msgs : List ℕ)
    (hint : 0 < cfg.flushInterval) (h1 : 1 ≤ msgs.length)
    (hlt : msgs.length < cfg.bufferSize) :
    ∀ k, msgs.length + ⌈20 * cfg.flushInterval⌉₊ ≤ k →
      (workerRun cfg k (workerInit msgs)).out = [flushBatch msgs] := by
  have hne : msgs.isEmpty = false := by
    rw [List.isEmpty_eq_false]
    intro hnil
    rw [hnil] at h1
    simp at h1
  have hbuf : decide (cfg.bufferSize ≤ msgs.length) = false :=
    decide_eq_false (by omega)
  have hS0 : workerRun cfg msgs.length (workerInit msgs)
      = ⟨[], msgs, 0, 0, []⟩ := by
    rw [workerRun_fill cfg msgs hint msgs.length le_rfl hlt,
      List.drop_length, List.take_length]
  have hwait : ∀ j, j < ⌈20 * cfg.flushInterval⌉₊ →
      workerRun cfg (msgs.length + j) (workerInit msgs)
        = ⟨[], msgs, (j : ℚ) * getTimeout, 0, []⟩ := by
    intro j
    induction j with
    | zero =>
      intro _
      rw [Nat.add_zero, hS0]
      norm_num
    | succ j ih =>
      intro hjlt
      have hstep : msgs.length + (j + 1) = (msgs.length + j) + 1 := by omega
      rw [hstep, workerRun_succ_last, ih (by omega)]
      have harith : (j : ℚ) * getTimeout + getTimeout
          = ((j : ℚ) + 1) * getTimeout := by ring
      have htlt : ((j : ℚ) + 1) * getTimeout < cfg.flushInterval := by
        have hcast : ((j + 1 : ℕ) : ℚ) < 20 * cfg.flushInterval :=
          Nat.lt_ceil.mp hjlt
        push_cast at hcast
        rw [getTimeout]
        nlinarith
      have ht1 : decide (cfg.flushInterval
          ≤ ((j : ℚ) + 1) * getTimeout) = false :=
        decide_eq_false (not_le.mpr htlt)
      simp only [workerStep, harith, sub_zero, hbuf, ht1, Bool.and_false,
        Bool.false_or, Bool.or_false, if_false]
      norm_num
  have hflushstate : workerRun cfg
      (msgs.length + ⌈20 * cfg.flushInterval⌉₊) (workerInit msgs)
      = ⟨[], [], (⌈20 * cfg.flushInterval⌉₊ : ℚ) * getTimeout,
          (⌈20 * cfg.flushInterval⌉₊ : ℚ) * getTimeout,
          [flushBatch msgs]⟩ := by
    have hj0pos : 0 < ⌈20 * cfg.flushInterval⌉₊ := by
      rw [Nat.ceil_pos]
      positivity
    obtain ⟨j, hj⟩ : ∃ j, ⌈20 * cfg.flushInterval⌉₊ = j + 1 :=
      ⟨⌈20 * cfg.flushInterval⌉₊ - 1, by omega⟩
    have hstep : msgs.length + (j + 1) = (msgs.length + j) + 1 := by omega
    rw [hj, hstep, workerRun_succ_last, hwait j (by omega)]
    have harith : (j : ℚ) * getTimeout + getTimeout
        = ((j : ℚ) + 1) * getTimeout := by ring
    have htge : cfg.flushInterval ≤ ((j : ℚ) + 1) * getTimeout := by
      have hcast : 20 * cfg.flushInterval ≤ ((j + 1 : ℕ) : ℚ) := by
        rw [← hj]
        exact Nat.le_ceil _
      push_cast at hcast
      rw [getTimeout]
      nlinarith
    have ht1 : decide (cfg.flushInterval
        ≤ ((j : ℚ) + 1) * getTimeout) = true :=
      decide_eq_true htge
    simp only [workerStep, harith, sub_zero, hbuf, ht1, hne,
      Bool.not_false, Bool.true_and, Bool.false_or, if_true]
    norm_num
  intro k hk
  obtain ⟨j, hj⟩ : ∃ j,
      k = (msgs.length + ⌈20 * cfg.flushInterval⌉₊) + j :=
    ⟨k - (msgs.length + ⌈20 * cfg.flushInterval⌉₊), by omega⟩
  rw [hj, workerRun_add, hflushstate]
  exact (workerRun_idle cfg j _ rfl rfl).2.2

/-! ### Transport-queue lemmas and the drop-oldest claim -/

theorem writeMsgs_flushBatch {α : Type} (ms : List α) :
    writeMsgs (flushBatch ms) = ms := by
  match ms with
  | [] => rfl
  | [m] => rfl
  | a :: b :: t => rfl

theorem mem_workerElems_step {α : Type} (cfg : WorkerCfg)
    (s : WorkerState α) (y : α)
    (hy : y ∈ workerElems (workerStep cfg s)) : y ∈ workerElems s := by
  unfold workerStep at hy
  cases hqs : s.queue with
  | nil =>
    rw [hqs] at hy
    dsimp at hy
    split at hy
    · simp [workerElems, writeMsgs_flushBatch, hqs] at hy ⊢
      tauto
    · simp [workerElems, hqs] at hy ⊢
      tauto
  | cons m rest =>
    rw [hqs] at hy
    dsimp at hy
    split at hy
    · simp [workerElems, writeMsgs_flushBatch, hqs] at hy ⊢
      tauto
    · simp [workerElems, hqs] at hy ⊢
      tauto

theorem mem_workerElems_run {α : Type} (cfg : WorkerCfg) (k : ℕ)
    (s : WorkerState α) (y : α)
    (hy : y ∈ workerElems (workerRun cfg k s)) : y ∈ workerElems s := by
  induction k generalizing s with
  | zero => exact hy
  | succ k ih =>
    have h1 : workerRun cfg (k + 1) s = workerRun cfg k (workerStep cfg s) :=
      rfl
    rw [h1] at hy
    exact mem_workerElems_step cfg s y (ih (workerStep cfg s) hy)

theorem foldl_enqueue_under_cap (cap : ℕ) :
    ∀ (l acc : List ℕ), acc.length + l.length ≤ cap →
      List.foldl (sendMessageAsync cap) acc l = acc ++ l := by
  intro l
  induction l with
  | nil =>
    intro acc _
    simp
  | cons x t ih =>
    intro acc hlen
    have hcond : ¬ (0 < cap ∧ cap ≤ acc.length) := by
      intro hc
      simp at hlen
      omega
    have hstep : sendMessageAsync cap acc x = acc ++ [x] := by
      simp [sendMessageAsync, putNowait, hcond]
    rw [List.foldl_cons, hstep,
      ih (acc ++ [x]) (by simp at hlen ⊢; omega)]
    simp

theorem enqueue_full_drops_oldest (cap : ℕ) (q : List ℕ) (m : ℕ)
    (hcap : 0 < cap) (hfull : q.length = cap) :
    sendMessageAsync cap q m = q.drop 1 ++ [m] := by
  match q with
  | [] =>
    rw [List.length_nil] at hfull
    omega
  | a :: t =>
    have h1 : putNowait cap (a :: t) m = Option.none := by
      have hc : 0 < cap ∧ cap ≤ (a :: t).length :=
        ⟨hcap, le_of_eq hfull.symm⟩
      unfold putNowait
      rw [if_pos hc]
    have h2 : putNowait cap t m = some (t ++ [m]) := by
      have : ¬ (0 < cap ∧ cap ≤ t.length) := by
        intro hc
        simp at hfull
        omega
      simp [putNowait, this]
    simp [sendMessageAsync, h1, getNowait, h2]

/-- C2: enqueue (_send_message_async) catches every exception, so it is
total; the queue never exceeds its bounded capacity; and when the queue is
full exactly the single oldest queued item is evicted before the new
message is inserted (FIFO drop-oldest).  Consequently, after enqueueing
capacity+1 distinct messages into an empty queue the queue holds messages
2..capacity+1: the first message is gone and no write the batch flusher
subsequently performs from that queue contains it. -/
theorem enqueue_drop_oldest (cap : ℕ) (q : List ℕ) (m first : ℕ)
    (msgs : List ℕ) (cfg : WorkerCfg) (k : ℕ) (hcap : 0 < cap) :
    (q.length ≤ cap → (sendMessageAsync cap q m).length ≤ cap) ∧
    (q.length = cap → sendMessageAsync cap q m = q.drop 1 ++ [m]) ∧
    (msgs.length = cap + 1 → msgs.Nodup → msgs.head? = some first →
      List.foldl (sendMessageAsync cap) [] msgs = msgs.drop 1 ∧
      first ∉ List.foldl (sendMessageAsync cap) [] msgs ∧
      (∀ w ∈ (workerRun cfg k (workerInit
          (List.foldl (sendMessageAsync cap) [] msgs))).out,
        first ∉ writeMsgs w)) := by
  refine ⟨?_, ?_, ?_⟩
  · intro hle
    rcases lt_or_eq_of_le hle with hlt | heq
    · have hcond : ¬ (0 < cap ∧ cap ≤ q.length) := by
        intro hc
        omega
      have : sendMessageAsync cap q m = q ++ [m] := by
        simp [sendMessageAsync, putNowait, hcond]
      rw [this]
      simp
      omega
    · rw [enqueue_full_drops_oldest cap q m hcap heq]
      simp
      omega
  · exact enqueue_full_drops_oldest cap q m hcap
  · intro hlen hnd hfirst
    have hfold : List.foldl (sendMessageAsync cap) [] msgs = msgs.drop 1 := by
      have hbodylen : (msgs.take cap).length = cap := by
        rw [List.length_take]
        omega
      obtain ⟨last, hlast⟩ : ∃ a, msgs.drop cap = [a] := by
        rw [← List.length_eq_one, List.length_drop]
        omega
      have hsplit : msgs.take cap ++ [last] = msgs := by
        rw [← hlast]
        exact List.take_append_drop cap msgs
      calc List.foldl (sendMessageAsync cap) [] msgs
          = List.foldl (sendMessageAsync cap) []
              (msgs.take cap ++ [last]) := by rw [hsplit]
        _ = List.foldl (sendMessageAsync cap)
              (List.foldl (sendMessageAsync cap) [] (msgs.take cap))
              [last] := List.foldl_append _ _ _ _
        _ = List.foldl (sendMessageAsync cap) (msgs.take cap) [last] := by
              rw [foldl_enqueue_under_cap cap (msgs.take cap) []
                (by simp [hbodylen])]
              simp
        _ = sendMessageAsync cap (msgs.take cap) last := rfl
        _ = (msgs.take cap).drop 1 ++ [last] :=
              enqueue_full_drops_oldest cap _ last hcap hbodylen
        _ = msgs.drop 1 := by
              conv_rhs => rw [← hsplit]
              rw [List.drop_append_of_le_length (by omega)]
    obtain ⟨tail, htail⟩ : ∃ t, msgs = first :: t := by
      cases msgs with
      | nil => simp at hfirst
      | cons a t =>
        simp at hfirst
        exact ⟨t, by rw [hfirst]⟩
    have hnotmem : first ∉ msgs.drop 1 := by
      rw [htail]
      exact (List.nodup_cons.mp (htail ▸ hnd)).1
    refine ⟨hfold, by rw [hfold]; exact hnotmem, ?_⟩
    intro w hw hmem
    apply hnotmem
    rw [← hfold]
    have helem : first ∈ workerElems (workerRun cfg k
        (workerInit (List.foldl (sendMessageAsync cap) [] msgs))) := by
      simp only [workerElems, List.mem_append, List.mem_flatten]
      exact Or.inr ⟨writeMsgs w, List.mem_map_of_mem writeMsgs hw, hmem⟩
    have := mem_workerElems_run cfg k _ first helem
    simpa [workerElems, workerInit] using this

theorem enqueue_drop_oldest_witness :
    sendMessageAsync 2 [7, 8] 9 = [8, 9] ∧
    List.foldl (sendMessageAsync 2) [] [10, 20, 30] = [20, 30] ∧
    10 ∉ List.foldl (sendMessageAsync 2) [] [10, 20, 30] := by
  have h := enqueue_drop_oldest 2 [7, 8] 9 10 [10, 20, 30] ⟨1, 1⟩ 5
    (by norm_num)
  have h3 := h.2.2 (by rfl) (by decide) (by rfl)
  exact ⟨by simpa using h.2.1 rfl, by simpa using h3.1, h3.2.1⟩

/-- C3: the batch flusher performs exactly one write per flush, serializing
a singleton batch as a single envelope object and two or more messages as a
JSON array of envelopes; a flush triggers when the batch reaches the size
threshold or when the flush interval has elapsed with a non-empty batch,
whichever comes first: exactly threshold queued messages yield exactly one
write holding all of them as one array, and fewer than threshold yield
exactly one write of the partial batch once the interval has elapsed. -/
theorem flusher_one_write_per_flush (cfg : WorkerCfg) (msgs pmsgs : List ℕ)
    (m1 : ℕ) (ms2 : List ℕ) (hint : 0 < cfg.flushInterval) :
    flushBatch [m1] = .single m1 ∧
    (2 ≤ ms2.length → flushBatch ms2 = .array ms2) ∧
    (msgs.length = cfg.bufferSize → 2 ≤ msgs.length →
      ∀ k, msgs.length ≤ k →
        (workerRun cfg k (workerInit msgs)).out = [.array msgs]) ∧
    (1 ≤ pmsgs.length → pmsgs.length < cfg.bufferSize →
      ∀ k, pmsgs.length + ⌈20 * cfg.flushInterval⌉₊ ≤ k →
        (workerRun cfg k (workerInit pmsgs)).out = [flushBatch pmsgs]) := by
  refine ⟨rfl, ?_, ?_, ?_⟩
  · intro h2
    match ms2, h2 with
    | a :: b :: t, _ => rfl
  · intro hlen h2
    exact workerRun_threshold_flush cfg msgs hint hlen h2
  · intro h1 hlt
    exact workerRun_partial_flush cfg pmsgs hint h1 hlt

theorem flusher_one_write_witness :
    (workerRun ⟨3, 1/10⟩ 3 (workerInit [1, 2, 3])).out
      = [FlushWrite.array [1, 2, 3]] ∧
    (workerRun ⟨3, 1/10⟩ ([9].length + ⌈20 * ((1 : ℚ)/10)⌉₊)
        (workerInit [9])).out = [flushBatch [9]] ∧
    flushBatch [9] = FlushWrite.single 9 := by
  have h := flusher_one_write_per_flush ⟨3, 1/10⟩ [1, 2, 3] [9] 9 [1, 2]
    (by norm_num)
  exact ⟨h.2.2.1 (by rfl) (by norm_num) 3 (by norm_num),
    h.2.2.2 (by norm_num) (by norm_num) _ (le_refl _), h.1⟩


/-! ### Audit-log integrity claim -/

theorem audit_write_verify_strings_differ (e : AuditEvent) :
    writeChecksumInput e ≠ verifyChecksumInput e := by
  intro heq
  have hlen := congrArg String.length heq
  have hq : ("\"" : String).length = 1 := rfl
  have hcs : ("checksum" : String).length = 8 := rfl
  have hcolon : (": " : String).length = 2 := rfl
  have hnull : ("null" : String).length = 4 := rfl
  have hcomma : (", " : String).length = 2 := rfl
  simp only [writeChecksumInput, verifyChecksumInput, dumpsEventSorted,
    jobj, jjoin, jentry, jstr, String.length_append, hq, hcs, hcolon,
    hnull, hcomma] at hlen
  omega

/-- C1 (code bug): _log_audit_event computes the stored checksum over the
event serialized while its checksum field still holds null, but
verify_integrity recomputes the checksum over the parsed event with the
checksum key popped, so the two hash inputs differ for every record, and
for any checksum function separating them verify_integrity counts every
uncorrupted record as corrupted: n freshly written records report 0
verified and n corrupted, never n verified. -/
theorem audit_verify_rejects_valid_records (h : String → String)
    (es : List AuditEvent)
    (hsep : ∀ e ∈ es, h (verifyChecksumInput e) ≠ h (writeChecksumInput e)) :
    (∀ e : AuditEvent, writeChecksumInput e ≠ verifyChecksumInput e) ∧
    verifyIntegrity h (es.map (writtenRecord h)) = (0, es.length) := by
  refine ⟨audit_write_verify_strings_differ, ?_⟩
  have hrec : ∀ e ∈ es, recordVerifies h (writtenRecord h e) = false := by
    intro e he
    have hs := hsep e he
    simp only [recordVerifies, writtenRecord, storedChecksum,
      beq_eq_false_iff_ne, ne_eq]
    exact fun hx => hs hx.symm
  unfold verifyIntegrity
  simp only [Prod.mk.injEq]
  constructor
  · rw [List.countP_eq_zero]
    intro a ha
    obtain ⟨e, he, rfl⟩ := List.mem_map.mp ha
    simp [hrec e he]
  · rw [← List.length_map es (writtenRecord h), List.countP_eq_length]
    intro a ha
    obtain ⟨e, he, rfl⟩ := List.mem_map.mp ha
    simp [hrec e he]

theorem audit_verify_witness :
    writeChecksumInput c1Event ≠ verifyChecksumInput c1Event ∧
    verifyIntegrity (fun s => s) [writtenRecord (fun s => s) c1Event]
      = (0, 1) := by
  have h := audit_verify_rejects_valid_records (fun s => s) [c1Event]
    (by
      intro e he
      simp at he
      subst he
      decide)
  exact ⟨h.1 c1Event, by simpa using h.2⟩


end HawkTui
